import Mathlib

/-!
Shallow embedding of the iPad reservation tracker (REGISTRO-IPADS).

The repository has two server variants:
* the batch variant (`src/unnamed/part_000`): multi-device `POST /api/reserve`,
  whole-day `POST /api/return`, a `history` table, `GET /api/stats`;
* the single-device variant (`src/server.ts`): one `ipad_id` per reserve, a
  Monday-to-Friday weekday guard, no `history` table.

Data is stored in SQLite.  The `reservations` table carries
`UNIQUE(ipad_id, fecha, bloque_horario)`; `fecha` is a TEXT column holding a
canonical zero-padded "YYYY-MM-DD" string, which we model as a `Date` record:
equality of canonical strings is equality of records, and the lexicographic
string order used by the past-date guard (`fecha < todayStr`) is the
lexicographic order `dateLt` on (year, month, day).
-/

/-- A calendar date, standing for the canonical "YYYY-MM-DD" TEXT value. -/
structure Date where
  year : Nat
  month : Nat
  day : Nat
deriving DecidableEq

/-- Lexicographic order on dates: the string comparison `fecha < todayStr`
performed by `POST /api/return` on canonical "YYYY-MM-DD" strings. -/
def dateLt (a b : Date) : Bool :=
  decide (a.year < b.year ∨ (a.year = b.year ∧
    (a.month < b.month ∨ (a.month = b.month ∧ a.day < b.day))))

/-- Days since 1970-01-01 of a civil date (Gregorian), the standard
days-from-civil computation; JavaScript `new Date("YYYY-MM-DD")` parses the
string as a UTC timestamp at this day number. -/
def daysFromCivil (dt : Date) : Int :=
  let y : Int := if dt.month ≤ 2 then (dt.year : Int) - 1 else (dt.year : Int)
  let era : Int := (if 0 ≤ y then y else y - 399).ediv 400
  let yoe : Int := y - era * 400
  let mp : Int := ((dt.month : Int) + 9).emod 12
  let doy : Int := (153 * mp + 2).ediv 5 + (dt.day : Int) - 1
  let doe : Int := yoe * 365 + yoe.ediv 4 - yoe.ediv 100 + doy
  era * 146097 + doe - 719468

/-- `new Date(fecha).getUTCDay()`: 0 = Sunday, 1 = Monday, ..., 6 = Saturday
(1970-01-01 was a Thursday, day number 4). -/
def dayOfWeekJS (dt : Date) : Nat :=
  ((daysFromCivil dt + 4).emod 7).toNat

/-- One row of the `reservations` table (ledger of active reservations).
The AUTOINCREMENT id and the timestamp play no role in any rule and are
omitted. -/
structure Reservation where
  ipad_id : Int
  fecha : Date
  bloque_horario : String
  docente : String
  curso : String
deriving DecidableEq

/-- The `tipo` column of the `history` table. -/
inductive EventType
  | RESERVA
  | DEVOLUCION
deriving DecidableEq

/-- One row of the `history` table.  The `ipads` TEXT column is
`ids.join(", ")`, modelled as the id list; for a DEVOLUCION row the
`bloque_horario` TEXT column is the `", "`-join of the released-block set in
insertion order, modelled as that list. -/
structure HistoryEvent where
  docente : String
  curso : String
  ipads : List Int
  fecha : Date
  bloques : List String
  tipo : EventType
  novedades : String
deriving DecidableEq

/-- Combined database state of the batch variant: the `reservations` ledger
and the append-only `history` log. -/
structure DB where
  reservations : List Reservation
  history : List HistoryEvent
deriving DecidableEq

/-- Outcome of an endpoint call, by HTTP status: 200 success, 409 conflict,
404 not found, 400 validation error. -/
inductive ApiResult
  | success
  | conflict
  | notFound
  | validationError
deriving DecidableEq

/-- Does row `r` hit the `UNIQUE(ipad_id, fecha, bloque_horario)` key
`(i, f, b)`? -/
def matchesSlot (i : Int) (f : Date) (b : String) (r : Reservation) : Bool :=
  decide (r.ipad_id = i ∧ r.fecha = f ∧ r.bloque_horario = b)

/-- Is some active reservation already stored under the slot key
`(i, f, b)`?  An INSERT violates the UNIQUE constraint exactly when this
holds. -/
def slotTaken (rs : List Reservation) (i : Int) (f : Date) (b : String) : Bool :=
  rs.any (matchesSlot i f b)

/-- Number of ledger rows under the slot key `(i, f, b)`. -/
def countSlot (rs : List Reservation) (i : Int) (f : Date) (b : String) : Nat :=
  (rs.filter (matchesSlot i f b)).length

/-- The loop body of the reserve transaction in `part_000`: run
`insertRes.run(id, fecha, bloque_horario, docente, curso)` for each id in
order.  SQLite raises `SQLITE_CONSTRAINT_UNIQUE` on the first id whose slot
is already present (also when it was inserted earlier in the same batch),
which aborts and rolls back the whole transaction: `none` models the
rollback. -/
def insertReservations (rs : List Reservation) (ids : List Int) (f : Date)
    (b dc cu : String) : Option (List Reservation) :=
  match ids with
  | [] => some rs
  | id :: rest =>
    if slotTaken rs id f b then none
    else insertReservations
      (rs ++ [{ ipad_id := id, fecha := f, bloque_horario := b,
                docente := dc, curso := cu }]) rest f b dc cu

/-- `POST /api/reserve` of the batch variant (`part_000`).  Validation first
(missing/empty `ipad_ids`, `bloque_horario` or `docente` — JavaScript
falsiness of a string is emptiness; `fecha` is present by typing); then the
transaction inserts every id and appends one RESERVA history row; a UNIQUE
violation rolls everything back and answers 409. -/
def apiReserve (db : DB) (ipad_ids : List Int) (fecha : Date)
    (bloque_horario docente curso : String) : DB × ApiResult :=
  if ipad_ids = [] ∨ bloque_horario = "" ∨ docente = "" then
    (db, .validationError)
  else
    match insertReservations db.reservations ipad_ids fecha bloque_horario
        docente curso with
    | none => (db, .conflict)
    | some rs =>
      ({ reservations := rs,
         history := db.history ++
           [{ docente := docente, curso := curso, ipads := ipad_ids,
              fecha := fecha, bloques := [bloque_horario],
              tipo := .RESERVA, novedades := "" }] }, .success)

/-- Does row `r` belong to device `i` on date `f` (any block)?  This is the
`WHERE ipad_id = ? AND fecha = ?` condition of both the `getBlocks` SELECT
and the `remove` DELETE of `POST /api/return`. -/
def matchesDay (i : Int) (f : Date) (r : Reservation) : Bool :=
  decide (r.ipad_id = i ∧ r.fecha = f)

/-- `getBlocks.all(id, fecha)`: blocks of the active reservations of one
device on one date. -/
def blocksFor (rs : List Reservation) (i : Int) (f : Date) : List String :=
  (rs.filter (matchesDay i f)).map (fun r => r.bloque_horario)

/-- `remove.run(id, fecha)`: delete every reservation of device `i` on date
`f`, whatever its block. -/
def removeDevice (rs : List Reservation) (i : Int) (f : Date) : List Reservation :=
  rs.filter (fun r => !(matchesDay i f r))

/-- `releasedBlocks.add(b)` on a JavaScript `Set`: keep insertion order,
skip a block already present. -/
def addBlock (acc : List String) (b : String) : List String :=
  if b ∈ acc then acc else acc ++ [b]

/-- The loop of the return transaction in `part_000`: for each id, read its
blocks for the date; when there are any, record them in the released set and
delete the device's rows for that date. -/
def returnLoop (rs : List Reservation) (released : List String)
    (ids : List Int) (f : Date) : List Reservation × List String :=
  match ids with
  | [] => (rs, released)
  | id :: rest =>
    if blocksFor rs id f = [] then returnLoop rs released rest f
    else returnLoop (removeDevice rs id f)
      ((blocksFor rs id f).foldl addBlock released) rest f

/-- `POST /api/return` of the batch variant (`part_000`).  Validation
(non-empty `ipad_ids`, `fecha` present), then the past-date guard
(`fecha < todayStr`, string comparison on canonical dates = `dateLt`), then
the transaction: release each device's whole day; with no released block the
transaction reports `false` and the endpoint answers 404 without history;
otherwise one DEVOLUCION history row is appended (`docente`/`curso`
defaulted to "N/A" when falsy, `novedades` to ""). -/
def apiReturn (db : DB) (ipad_ids : List Int) (fecha today : Date)
    (docente curso novedades : String) : DB × ApiResult :=
  if ipad_ids = [] then (db, .validationError)
  else if dateLt fecha today then (db, .validationError)
  else if (returnLoop db.reservations [] ipad_ids fecha).2 = [] then
    ({ db with
       reservations := (returnLoop db.reservations [] ipad_ids fecha).1 },
     .notFound)
  else
    ({ reservations := (returnLoop db.reservations [] ipad_ids fecha).1,
       history := db.history ++
         [{ docente := if docente = "" then "N/A" else docente,
            curso := if curso = "" then "N/A" else curso,
            ipads := ipad_ids, fecha := fecha,
            bloques := (returnLoop db.reservations [] ipad_ids fecha).2,
            tipo := .DEVOLUCION, novedades := novedades }] }, .success)

/-- `POST /api/reserve` of the single-device variant (`src/server.ts`).
`!ipad_id` is JavaScript falsiness, so the id 0 is rejected as a missing
field; then the Monday-to-Friday guard on `new Date(fecha).getUTCDay()`;
then one INSERT, answering 409 on a UNIQUE violation.  This variant has no
history table, so its state is the ledger alone. -/
def apiReserveSingle (rs : List Reservation) (ipad_id : Int) (fecha : Date)
    (bloque_horario docente curso : String) : List Reservation × ApiResult :=
  if ipad_id = 0 ∨ bloque_horario = "" ∨ docente = "" then
    (rs, .validationError)
  else if dayOfWeekJS fecha = 0 ∨ dayOfWeekJS fecha = 6 then
    (rs, .validationError)
  else if slotTaken rs ipad_id fecha bloque_horario then (rs, .conflict)
  else
    (rs ++ [{ ipad_id := ipad_id, fecha := fecha,
              bloque_horario := bloque_horario, docente := docente,
              curso := curso }], .success)

/-- Distinct values of a list, first occurrence first: the groups produced
by a SQLite `GROUP BY` over these values (one group per distinct key). -/
def distinctKeys {K : Type} [DecidableEq K] (ks : List K) : List K :=
  ks.foldl (fun acc k => if k ∈ acc then acc else acc ++ [k]) []

/-- `SELECT key, COUNT(*) ... GROUP BY key ORDER BY count DESC LIMIT 1`:
`none` when there is no row at all, otherwise a key of maximal row count.
Among tied counts SQLite leaves the result order unspecified; this model
keeps the first-encountered key of maximal count, one concrete choice. -/
def topBy {K : Type} [DecidableEq K] (rows : List Reservation)
    (key : Reservation → K) : Option K :=
  ((distinctKeys (rows.map key)).foldl
    (fun best k =>
      let c := (rows.filter (fun r => decide (key r = k))).length
      match best with
      | none => some (k, c)
      | some p => if p.2 < c then some (k, c) else some p)
    none).map Prod.fst

/-- The JSON answered by `GET /api/stats`.  The three derived fields hold
either a rendered value or the no-data sentinel "N/A". -/
structure Stats where
  total : Nat
  ipadMasUsado : String
  diaMasDemanda : String
  bloqueMasReservado : String
deriving DecidableEq

/-- Zero-padded two digits, as inside a canonical "YYYY-MM-DD" string. -/
def pad2 (n : Nat) : String :=
  if n < 10 then "0" ++ toString n else toString n

/-- The canonical TEXT form of a date. -/
def dateStr (dt : Date) : String :=
  toString dt.year ++ "-" ++ pad2 dt.month ++ "-" ++ pad2 dt.day

/-- The `strftime` month/year restriction of the stats queries. -/
def inMonth (m y : Nat) (r : Reservation) : Bool :=
  decide (r.fecha.month = m ∧ r.fecha.year = y)

/-- The JSON built by `GET /api/stats` from the month's rows.  Each
`x?.field || "N/A"` renders the sentinel "N/A" when its query returned no
row — and also when the value itself is JavaScript-falsy (id 0, empty block
name); `diaMasDemanda` renders a canonical date string, never empty, hence
never falsy. -/
def statsOf (rows : List Reservation) : Stats :=
  { total := rows.length
    ipadMasUsado :=
      match topBy rows (fun r => r.ipad_id) with
      | none => "N/A"
      | some i => if i = 0 then "N/A" else toString i
    diaMasDemanda :=
      match topBy rows (fun r => r.fecha) with
      | none => "N/A"
      | some d => dateStr d
    bloqueMasReservado :=
      match topBy rows (fun r => r.bloque_horario) with
      | none => "N/A"
      | some b => if b = "" then "N/A" else b }

/-- `GET /api/stats` of the batch variant: read-only rollups over the
active reservations restricted by `strftime` to one month/year. -/
def apiStats (db : DB) (m y : Nat) : Stats :=
  statsOf (db.reservations.filter (inMonth m y))

/-- States of the batch variant reachable from the empty database by any
sequence of Reserve and Return calls. -/
inductive Reachable : DB → Prop
  | empty : Reachable ⟨[], []⟩
  | reserveStep (db : DB) (ids : List Int) (f : Date) (b dc cu : String) :
      Reachable db → Reachable (apiReserve db ids f b dc cu).1
  | returnStep (db : DB) (ids : List Int) (f today : Date) (dc cu nv : String) :
      Reachable db → Reachable (apiReturn db ids f today dc cu nv).1

/-- The per-slot uniqueness invariant of the ledger. -/
def UniqueSlots (rs : List Reservation) : Prop :=
  ∀ i f b, countSlot rs i f b ≤ 1

example : dayOfWeekJS ⟨1970, 1, 1⟩ = 4 := by decide
example : dayOfWeekJS ⟨2025, 10, 11⟩ = 6 := by decide
example : dayOfWeekJS ⟨2025, 10, 12⟩ = 0 := by decide
example : dayOfWeekJS ⟨2025, 10, 13⟩ = 1 := by decide
example : dayOfWeekJS ⟨2025, 3, 10⟩ = 1 := by decide
example : dayOfWeekJS ⟨2024, 2, 29⟩ = 4 := by decide
example :
    (apiReserve ⟨[], []⟩ [3, 4] ⟨2025, 3, 10⟩ "1st" "Ana" "").2 =
      ApiResult.success := by decide
example :
    (apiReserve ⟨[], []⟩ [3, 4, 3] ⟨2025, 3, 10⟩ "1st" "Ana" "").2 =
      ApiResult.conflict := by decide
example :
    (apiReturn (apiReserve ⟨[], []⟩ [7] ⟨2025, 3, 10⟩ "1st" "Ana" "").1
      [7] ⟨2025, 3, 10⟩ ⟨2025, 3, 10⟩ "" "" "").2 = ApiResult.success := by
  decide
example :
    (apiReturn ⟨[], []⟩ [7] ⟨2025, 3, 9⟩ ⟨2025, 3, 10⟩ "" "" "").2 =
      ApiResult.validationError := by decide
example :
    (apiReturn ⟨[], []⟩ [7] ⟨2025, 3, 10⟩ ⟨2025, 3, 10⟩ "" "" "").2 =
      ApiResult.notFound := by decide
example :
    (apiReserveSingle [] 7 ⟨2025, 10, 11⟩ "1st" "Ana" "").2 =
      ApiResult.validationError := by decide
example :
    (apiReserveSingle [] 0 ⟨2025, 10, 13⟩ "1st" "Ana" "").2 =
      ApiResult.validationError := by decide
example :
    (apiReserveSingle [] 61 ⟨2025, 10, 13⟩ "1st" "Ana" "").2 =
      ApiResult.success := by decide
example : apiStats ⟨[], []⟩ 3 2025 = ⟨0, "N/A", "N/A", "N/A"⟩ := by decide
example :
    apiStats (apiReserve ⟨[], []⟩ [7, 9] ⟨2025, 3, 10⟩ "1st" "Ana" "").1
      3 2025 = ⟨2, "7", "2025-03-10", "1st"⟩ := by decide

/-! ### Lemmas about the reserve transaction -/

lemma matchesSlot_self (i : Int) (f : Date) (b : String) (dc cu : String) :
    matchesSlot i f b ⟨i, f, b, dc, cu⟩ = true := by
  simp [matchesSlot]

lemma slotTaken_append_left {rs xs : List Reservation} {i : Int} {f : Date}
    {b : String} (h : slotTaken rs i f b = true) :
    slotTaken (rs ++ xs) i f b = true := by
  simp only [slotTaken, List.any_append, Bool.or_eq_true]
  exact Or.inl h

lemma slotTaken_of_mem {rs : List Reservation} {r : Reservation}
    (hr : r ∈ rs) {i : Int} {f : Date} {b : String}
    (hm : matchesSlot i f b r = true) : slotTaken rs i f b = true := by
  simp only [slotTaken, List.any_eq_true]
  exact ⟨r, hr, hm⟩

lemma insertReservations_mem {rs rs' : List Reservation} {ids : List Int}
    {f : Date} {b dc cu : String}
    (h : insertReservations rs ids f b dc cu = some rs')
    {r : Reservation} (hr : r ∈ rs) : r ∈ rs' := by
  induction ids generalizing rs with
  | nil =>
    simp only [insertReservations, Option.some.injEq] at h
    exact h ▸ hr
  | cons id rest ih =>
    rw [insertReservations] at h
    split at h
    · exact absurd h (by simp)
    · exact ih h (by simp [hr])

lemma insertReservations_none {rs : List Reservation} {ids : List Int}
    {i : Int} {f : Date} {b dc cu : String} (hi : i ∈ ids)
    (ht : slotTaken rs i f b = true) :
    insertReservations rs ids f b dc cu = none := by
  induction ids generalizing rs with
  | nil => cases hi
  | cons id rest ih =>
    rw [insertReservations]
    split
    · rfl
    · rename_i hfree
      rcases List.mem_cons.mp hi with he | he
      · exact absurd (he ▸ ht) hfree
      · exact ih he (slotTaken_append_left ht)

lemma insertReservations_taken {rs rs' : List Reservation} {ids : List Int}
    {f : Date} {b dc cu : String}
    (h : insertReservations rs ids f b dc cu = some rs')
    {i : Int} (hi : i ∈ ids) : slotTaken rs' i f b = true := by
  induction ids generalizing rs with
  | nil => cases hi
  | cons id rest ih =>
    rw [insertReservations] at h
    split at h
    · exact absurd h (by simp)
    · rcases List.mem_cons.mp hi with he | he
      · subst he
        have hmem : (⟨i, f, b, dc, cu⟩ : Reservation) ∈ rs' :=
          insertReservations_mem h (by simp)
        exact slotTaken_of_mem hmem (matchesSlot_self i f b dc cu)
      · exact ih h he

lemma countSlot_append (rs xs : List Reservation) (i : Int) (f : Date)
    (b : String) :
    countSlot (rs ++ xs) i f b = countSlot rs i f b + countSlot xs i f b := by
  simp [countSlot, List.filter_append]

lemma countSlot_eq_zero {rs : List Reservation} {i : Int} {f : Date}
    {b : String} (h : slotTaken rs i f b = false) :
    countSlot rs i f b = 0 := by
  simp only [slotTaken, List.any_eq_false] at h
  simp only [countSlot, List.length_eq_zero, List.filter_eq_nil_iff]
  exact h

lemma countSlot_singleton (r : Reservation) (i : Int) (f : Date)
    (b : String) :
    countSlot [r] i f b = if matchesSlot i f b r = true then 1 else 0 := by
  by_cases h : matchesSlot i f b r = true
  · simp [countSlot, List.filter, h]
  · simp [countSlot, List.filter, h]

lemma insertReservations_unique {rs rs' : List Reservation} {ids : List Int}
    {f : Date} {b dc cu : String} (hu : UniqueSlots rs)
    (h : insertReservations rs ids f b dc cu = some rs') :
    UniqueSlots rs' := by
  induction ids generalizing rs with
  | nil =>
    simp only [insertReservations, Option.some.injEq] at h
    exact h ▸ hu
  | cons id rest ih =>
    rw [insertReservations] at h
    split at h
    · exact absurd h (by simp)
    · rename_i hfree
      have hfree' : slotTaken rs id f b = false := by
        simpa only [Bool.not_eq_true] using hfree
      refine ih ?_ h
      intro i' f' b'
      rw [countSlot_append, countSlot_singleton]
      by_cases hm : matchesSlot i' f' b' (⟨id, f, b, dc, cu⟩ : Reservation)
          = true
      · obtain ⟨h1, h2, h3⟩ : id = i' ∧ f = f' ∧ b = b' := by
          simpa [matchesSlot] using hm
        subst h1; subst h2; subst h3
        have h0 : countSlot rs id f b = 0 := countSlot_eq_zero hfree'
        simp [h0, hm]
      · simp only [if_neg hm, Nat.add_zero]
        exact hu i' f' b'

lemma apiReserve_conflict_of_taken {db : DB} {ids : List Int} {f : Date}
    {b dc cu : String} (hne : ids ≠ []) (hb : b ≠ "") (hdc : dc ≠ "")
    (ht : ∃ i ∈ ids, slotTaken db.reservations i f b = true) :
    apiReserve db ids f b dc cu = (db, ApiResult.conflict) := by
  obtain ⟨i, hi, hti⟩ := ht
  unfold apiReserve
  rw [if_neg (by simp [hne, hb, hdc]), insertReservations_none hi hti]

lemma apiReserve_success_state {db : DB} {ids : List Int} {f : Date}
    {b dc cu : String}
    (h : (apiReserve db ids f b dc cu).2 = ApiResult.success) :
    ids ≠ [] ∧ b ≠ "" ∧ dc ≠ "" ∧
    ∃ rs', insertReservations db.reservations ids f b dc cu = some rs' ∧
      (apiReserve db ids f b dc cu).1.reservations = rs' := by
  unfold apiReserve at h ⊢
  by_cases hval : ids = [] ∨ b = "" ∨ dc = ""
  · rw [if_pos hval] at h
    exact absurd h (by simp)
  · rw [if_neg hval] at h ⊢
    push_neg at hval
    cases hins : insertReservations db.reservations ids f b dc cu with
    | none =>
      rw [hins] at h
      exact absurd h (by simp)
    | some rs' =>
      exact ⟨hval.1, hval.2.1, hval.2.2, rs', rfl, rfl⟩

lemma apiReserve_cases (db : DB) (ids : List Int) (f : Date)
    (b dc cu : String) :
    (apiReserve db ids f b dc cu).1 = db ∨
    ∃ rs', insertReservations db.reservations ids f b dc cu = some rs' ∧
      (apiReserve db ids f b dc cu).1.reservations = rs' := by
  unfold apiReserve
  split
  · exact Or.inl rfl
  · cases hins : insertReservations db.reservations ids f b dc cu with
    | none => exact Or.inl rfl
    | some rs' => exact Or.inr ⟨rs', rfl, rfl⟩

lemma apiReserve_unique {db : DB} {ids : List Int} {f : Date}
    {b dc cu : String} (hu : UniqueSlots db.reservations) :
    UniqueSlots (apiReserve db ids f b dc cu).1.reservations := by
  rcases apiReserve_cases db ids f b dc cu with h | ⟨rs', hins, hres⟩
  · rw [h]; exact hu
  · rw [hres]; exact insertReservations_unique hu hins

/-! ### Lemmas about the return transaction -/

/-- The rows deleted by a whole Return batch: device in the batch, same
date. -/
def matchesReturn (ids : List Int) (f : Date) (r : Reservation) : Bool :=
  decide (r.ipad_id ∈ ids ∧ r.fecha = f)

lemma blocksFor_eq_nil {rs : List Reservation} {i : Int} {f : Date} :
    blocksFor rs i f = [] ↔
      ∀ r ∈ rs, ¬(r.ipad_id = i ∧ r.fecha = f) := by
  simp [blocksFor, matchesDay, List.map_eq_nil_iff, List.filter_eq_nil_iff]

lemma blocksFor_mem {rs : List Reservation} {i : Int} {f : Date}
    {x : String} :
    x ∈ blocksFor rs i f ↔
      ∃ r ∈ rs, r.ipad_id = i ∧ r.fecha = f ∧ r.bloque_horario = x := by
  simp only [blocksFor, matchesDay, List.mem_map, List.mem_filter,
    decide_eq_true_eq]
  constructor
  · rintro ⟨r, ⟨hr, h1, h2⟩, h3⟩
    exact ⟨r, hr, h1, h2, h3⟩
  · rintro ⟨r, hr, h1, h2, h3⟩
    exact ⟨r, ⟨hr, h1, h2⟩, h3⟩

lemma mem_removeDevice {rs : List Reservation} {i : Int} {f : Date}
    {r : Reservation} :
    r ∈ removeDevice rs i f ↔
      r ∈ rs ∧ ¬(r.ipad_id = i ∧ r.fecha = f) := by
  simp only [removeDevice, List.mem_filter, matchesDay, Bool.not_eq_true',
    decide_eq_false_iff_not]

lemma mem_addBlock {acc : List String} {b x : String} :
    x ∈ addBlock acc b ↔ x ∈ acc ∨ x = b := by
  rw [addBlock]
  split
  · rename_i hb
    constructor
    · exact Or.inl
    · rintro (h | h)
      · exact h
      · exact h ▸ hb
  · simp [List.mem_append]

lemma mem_foldl_addBlock (rows : List String) (acc : List String)
    (x : String) :
    x ∈ rows.foldl addBlock acc ↔ x ∈ acc ∨ x ∈ rows := by
  induction rows generalizing acc with
  | nil => simp
  | cons r rest ih =>
    rw [List.foldl_cons, ih, mem_addBlock, List.mem_cons]
    tauto

lemma nodup_addBlock {acc : List String} (h : acc.Nodup) (b : String) :
    (addBlock acc b).Nodup := by
  rw [addBlock]
  split
  · exact h
  · rename_i hb
    simp [List.nodup_append, h, hb]

lemma nodup_foldl_addBlock (rows : List String) {acc : List String}
    (h : acc.Nodup) : (rows.foldl addBlock acc).Nodup := by
  induction rows generalizing acc with
  | nil => exact h
  | cons r rest ih => exact ih (nodup_addBlock h r)

lemma returnLoop_fst (rs : List Reservation) (acc : List String)
    (ids : List Int) (f : Date) :
    (returnLoop rs acc ids f).1 =
      rs.filter (fun r => !(matchesReturn ids f r)) := by
  induction ids generalizing rs acc with
  | nil =>
    rw [returnLoop]
    have : ∀ r ∈ rs, (!(matchesReturn [] f r)) = true := by
      intro r _
      simp [matchesReturn]
    rw [List.filter_eq_self.mpr this]
  | cons id rest ih =>
    rw [returnLoop]
    split
    · rename_i hrows
      rw [ih]
      apply List.filter_congr
      intro r hr
      have hno : ¬(r.ipad_id = id ∧ r.fecha = f) :=
        blocksFor_eq_nil.mp hrows r hr
      rw [Bool.eq_iff_iff]
      simp only [Bool.not_eq_true', matchesReturn, decide_eq_false_iff_not,
        List.mem_cons]
      tauto
    · rw [ih, removeDevice, List.filter_filter]
      apply List.filter_congr
      intro r hr
      rw [Bool.eq_iff_iff]
      simp only [Bool.and_eq_true, Bool.not_eq_true', matchesReturn,
        matchesDay, decide_eq_false_iff_not, List.mem_cons]
      tauto

lemma returnLoop_snd_mem (rs : List Reservation) (acc : List String)
    (ids : List Int) (f : Date) (x : String) :
    x ∈ (returnLoop rs acc ids f).2 ↔
      x ∈ acc ∨ ∃ r ∈ rs, r.ipad_id ∈ ids ∧ r.fecha = f ∧
        r.bloque_horario = x := by
  induction ids generalizing rs acc with
  | nil =>
    rw [returnLoop]
    simp
  | cons id rest ih =>
    rw [returnLoop]
    split
    · rename_i hrows
      rw [ih]
      have hno := blocksFor_eq_nil.mp hrows
      constructor
      · rintro (h | ⟨r, hr, hmem, hf, hb⟩)
        · exact Or.inl h
        · exact Or.inr ⟨r, hr, List.mem_cons_of_mem _ hmem, hf, hb⟩
      · rintro (h | ⟨r, hr, hmem, hf, hb⟩)
        · exact Or.inl h
        · refine Or.inr ⟨r, hr, ?_, hf, hb⟩
          rcases List.mem_cons.mp hmem with he | he
          · exact absurd ⟨he, hf⟩ (hno r hr)
          · exact he
    · rw [ih, mem_foldl_addBlock, blocksFor_mem]
      constructor
      · rintro ((h | ⟨r, hr, h1, h2, h3⟩) | ⟨r, hr, hmem, hf, hb⟩)
        · exact Or.inl h
        · exact Or.inr ⟨r, hr, h1 ▸ List.mem_cons_self id rest, h2, h3⟩
        · obtain ⟨hr', hnot⟩ := mem_removeDevice.mp hr
          exact Or.inr ⟨r, hr', List.mem_cons_of_mem _ hmem, hf, hb⟩
      · rintro (h | ⟨r, hr, hmem, hf, hb⟩)
        · exact Or.inl (Or.inl h)
        · by_cases he : r.ipad_id = id
          · exact Or.inl (Or.inr ⟨r, hr, he, hf, hb⟩)
          · refine Or.inr ⟨r, mem_removeDevice.mpr ⟨hr, ?_⟩, ?_, hf, hb⟩
            · tauto
            · rcases List.mem_cons.mp hmem with h1 | h1
              · exact absurd h1 he
              · exact h1

lemma returnLoop_snd_nodup (rs : List Reservation) (acc : List String)
    (ids : List Int) (f : Date) (h : acc.Nodup) :
    (returnLoop rs acc ids f).2.Nodup := by
  induction ids generalizing rs acc with
  | nil => exact h
  | cons id rest ih =>
    rw [returnLoop]
    split
    · exact ih _ _ h
    · exact ih _ _ (nodup_foldl_addBlock _ h)

lemma returnLoop_noop (rs : List Reservation) (acc : List String)
    (ids : List Int) (f : Date)
    (h : ∀ i ∈ ids, blocksFor rs i f = []) :
    returnLoop rs acc ids f = (rs, acc) := by
  induction ids with
  | nil => rfl
  | cons id rest ih =>
    rw [returnLoop, if_pos (h id (List.mem_cons_self id rest))]
    exact ih (fun i hi => h i (List.mem_cons_of_mem _ hi))

lemma countSlot_filter_le (rs : List Reservation) (p : Reservation → Bool)
    (i : Int) (f : Date) (b : String) :
    countSlot (rs.filter p) i f b ≤ countSlot rs i f b :=
  List.Sublist.length_le (List.Sublist.filter _ (List.filter_sublist rs))

lemma apiReturn_reservations (db : DB) (ids : List Int) (f today : Date)
    (dc cu nv : String) :
    (apiReturn db ids f today dc cu nv).1.reservations = db.reservations ∨
    (apiReturn db ids f today dc cu nv).1.reservations =
      db.reservations.filter (fun r => !(matchesReturn ids f r)) := by
  unfold apiReturn
  split
  · exact Or.inl rfl
  · split
    · exact Or.inl rfl
    · split
      · exact Or.inr (returnLoop_fst _ _ _ _)
      · exact Or.inr (returnLoop_fst _ _ _ _)

lemma apiReturn_unique {db : DB} {ids : List Int} {f today : Date}
    {dc cu nv : String} (hu : UniqueSlots db.reservations) :
    UniqueSlots (apiReturn db ids f today dc cu nv).1.reservations := by
  rcases apiReturn_reservations db ids f today dc cu nv with h | h
  · rw [h]; exact hu
  · rw [h]
    intro i' f' b'
    exact le_trans (countSlot_filter_le _ _ _ _ _) (hu i' f' b')

/-! ### The claims -/

/-- C1: starting from the empty ledger, after every sequence of Reserve and
Return operations at most one active reservation row exists per slot
(device, date, block); an insert that collides with an occupied slot leaves
the database unchanged and does not succeed — rejected, never
overwritten. -/
theorem slot_uniqueness_invariant (db : DB) (h : Reachable db) :
    (∀ i f b, countSlot db.reservations i f b ≤ 1) ∧
    (∀ ids f b dc cu,
      (∃ i ∈ ids, slotTaken db.reservations i f b = true) →
      (apiReserve db ids f b dc cu).1 = db ∧
      (apiReserve db ids f b dc cu).2 ≠ ApiResult.success) := by
  have hu : UniqueSlots db.reservations := by
    induction h with
    | empty => intro i f b; simp [countSlot]
    | reserveStep db ids f b dc cu hdb ih => exact apiReserve_unique ih
    | returnStep db ids f today dc cu nv hdb ih => exact apiReturn_unique ih
  refine ⟨hu, ?_⟩
  rintro ids f b dc cu ⟨i, hi, hti⟩
  have hres : apiReserve db ids f b dc cu = (db, ApiResult.conflict) ∨
      apiReserve db ids f b dc cu = (db, ApiResult.validationError) := by
    unfold apiReserve
    split
    · exact Or.inr rfl
    · rw [insertReservations_none hi hti]
      exact Or.inl rfl
  rcases hres with h' | h' <;> rw [h'] <;> exact ⟨rfl, by simp⟩

/-- C1 witness: the theorem applied to the reachable state holding one
reservation of device 7. -/
theorem slot_uniqueness_invariant_witness :
    Reachable (apiReserve ⟨[], []⟩ [7] ⟨2025, 3, 10⟩ "1st" "Ana" "").1 ∧
    ((∀ i f b,
        countSlot
          (apiReserve ⟨[], []⟩ [7] ⟨2025, 3, 10⟩ "1st" "Ana" "").1.reservations
          i f b ≤ 1) ∧
     (∀ ids f b dc cu,
        (∃ i ∈ ids,
          slotTaken
            (apiReserve ⟨[], []⟩ [7] ⟨2025, 3, 10⟩ "1st" "Ana" "").1.reservations
            i f b = true) →
        (apiReserve (apiReserve ⟨[], []⟩ [7] ⟨2025, 3, 10⟩ "1st" "Ana" "").1
            ids f b dc cu).1 =
          (apiReserve ⟨[], []⟩ [7] ⟨2025, 3, 10⟩ "1st" "Ana" "").1 ∧
        (apiReserve (apiReserve ⟨[], []⟩ [7] ⟨2025, 3, 10⟩ "1st" "Ana" "").1
            ids f b dc cu).2 ≠ ApiResult.success)) :=
  ⟨Reachable.reserveStep _ [7] ⟨2025, 3, 10⟩ "1st" "Ana" "" Reachable.empty,
   slot_uniqueness_invariant _
     (Reachable.reserveStep _ [7] ⟨2025, 3, 10⟩ "1st" "Ana" ""
       Reachable.empty)⟩

/-- C2: a Reserve batch in which some device already holds an active
reservation for the exact requested slot answers Conflict and leaves the
ledger and the history exactly as before: no partial state. -/
theorem reserve_batch_atomic_conflict (db : DB) (ids : List Int) (f : Date)
    (b dc cu : String) (hne : ids ≠ []) (hb : b ≠ "") (hdc : dc ≠ "")
    (ht : ∃ i ∈ ids, slotTaken db.reservations i f b = true) :
    apiReserve db ids f b dc cu = (db, ApiResult.conflict) :=
  apiReserve_conflict_of_taken hne hb hdc ht

/-- C2 witness: device 4 is booked, so reserving {3, 4, 5} for the same
slot is one atomic Conflict with no state change. -/
theorem reserve_batch_atomic_conflict_witness :
    ([3, 4, 5] ≠ ([] : List Int)) ∧ ("1st" ≠ "") ∧ ("Ana" ≠ "") ∧
    (∃ i ∈ [(3 : Int), 4, 5],
      slotTaken
        (apiReserve ⟨[], []⟩ [4] ⟨2025, 3, 10⟩ "1st" "Bea" "").1.reservations
        i ⟨2025, 3, 10⟩ "1st" = true) ∧
    apiReserve (apiReserve ⟨[], []⟩ [4] ⟨2025, 3, 10⟩ "1st" "Bea" "").1
        [3, 4, 5] ⟨2025, 3, 10⟩ "1st" "Ana" "" =
      ((apiReserve ⟨[], []⟩ [4] ⟨2025, 3, 10⟩ "1st" "Bea" "").1,
       ApiResult.conflict) :=
  ⟨by decide, by decide, by decide, by decide,
   reserve_batch_atomic_conflict _ _ _ _ _ _ (by decide) (by decide)
     (by decide) (by decide)⟩

/-- C3: a valid Return batch that releases at least one reservation
succeeds, removes every active reservation of each requested device on that
date across all blocks, and appends exactly one DEVOLUCION history event
listing all requested ids and the deduplicated set of blocks actually
released. -/
theorem return_releases_whole_day (db : DB) (ids : List Int)
    (f today : Date) (dc cu nv : String) (hne : ids ≠ [])
    (hpast : dateLt f today = false)
    (hsome : ∃ i ∈ ids, blocksFor db.reservations i f ≠ []) :
    (apiReturn db ids f today dc cu nv).2 = ApiResult.success ∧
    (apiReturn db ids f today dc cu nv).1.reservations =
      db.reservations.filter (fun r => !(matchesReturn ids f r)) ∧
    ∃ ev : HistoryEvent,
      (apiReturn db ids f today dc cu nv).1.history = db.history ++ [ev] ∧
      ev.tipo = EventType.DEVOLUCION ∧ ev.ipads = ids ∧ ev.fecha = f ∧
      ev.bloques.Nodup ∧
      ∀ x, x ∈ ev.bloques ↔
        ∃ r ∈ db.reservations, r.ipad_id ∈ ids ∧ r.fecha = f ∧
          r.bloque_horario = x := by
  have hsnd : (returnLoop db.reservations [] ids f).2 ≠ [] := by
    obtain ⟨i, hi, hbl⟩ := hsome
    obtain ⟨x, hx⟩ := List.exists_mem_of_ne_nil _ hbl
    obtain ⟨r, hr, h1, h2, h3⟩ := blocksFor_mem.mp hx
    have hx2 : x ∈ (returnLoop db.reservations [] ids f).2 :=
      (returnLoop_snd_mem _ _ _ _ _).mpr
        (Or.inr ⟨r, hr, by rw [h1]; exact hi, h2, h3⟩)
    exact List.ne_nil_of_mem hx2
  unfold apiReturn
  rw [if_neg hne, if_neg (by simp [hpast]), if_neg hsnd]
  refine ⟨rfl, returnLoop_fst _ _ _ _, _, rfl, rfl, rfl, rfl, ?_, ?_⟩
  · exact returnLoop_snd_nodup _ _ _ _ List.nodup_nil
  · intro x
    show x ∈ (returnLoop db.reservations [] ids f).2 ↔ _
    rw [returnLoop_snd_mem]
    simp

/-- C3 witness: device 7 reserved for blocks "1st" and "2nd" of
2025-03-10; returning device 7 for that date releases both blocks. -/
theorem return_releases_whole_day_witness :
    ([7] ≠ ([] : List Int)) ∧
    dateLt ⟨2025, 3, 10⟩ ⟨2025, 3, 10⟩ = false ∧
    (∃ i ∈ [(7 : Int)],
      blocksFor
        (apiReserve (apiReserve ⟨[], []⟩ [7] ⟨2025, 3, 10⟩ "1st" "Ana" "").1
          [7] ⟨2025, 3, 10⟩ "2nd" "Ana" "").1.reservations
        i ⟨2025, 3, 10⟩ ≠ []) ∧
    ((apiReturn
        (apiReserve (apiReserve ⟨[], []⟩ [7] ⟨2025, 3, 10⟩ "1st" "Ana" "").1
          [7] ⟨2025, 3, 10⟩ "2nd" "Ana" "").1
        [7] ⟨2025, 3, 10⟩ ⟨2025, 3, 10⟩ "Ana" "" "").2 =
      ApiResult.success ∧
     (apiReturn
        (apiReserve (apiReserve ⟨[], []⟩ [7] ⟨2025, 3, 10⟩ "1st" "Ana" "").1
          [7] ⟨2025, 3, 10⟩ "2nd" "Ana" "").1
        [7] ⟨2025, 3, 10⟩ ⟨2025, 3, 10⟩ "Ana" "" "").1.reservations =
      (apiReserve (apiReserve ⟨[], []⟩ [7] ⟨2025, 3, 10⟩ "1st" "Ana" "").1
          [7] ⟨2025, 3, 10⟩ "2nd" "Ana" "").1.reservations.filter
        (fun r => !(matchesReturn [7] ⟨2025, 3, 10⟩ r)) ∧
     ∃ ev : HistoryEvent,
      (apiReturn
        (apiReserve (apiReserve ⟨[], []⟩ [7] ⟨2025, 3, 10⟩ "1st" "Ana" "").1
          [7] ⟨2025, 3, 10⟩ "2nd" "Ana" "").1
        [7] ⟨2025, 3, 10⟩ ⟨2025, 3, 10⟩ "Ana" "" "").1.history =
        (apiReserve (apiReserve ⟨[], []⟩ [7] ⟨2025, 3, 10⟩ "1st" "Ana" "").1
          [7] ⟨2025, 3, 10⟩ "2nd" "Ana" "").1.history ++ [ev] ∧
      ev.tipo = EventType.DEVOLUCION ∧ ev.ipads = [7] ∧
      ev.fecha = ⟨2025, 3, 10⟩ ∧ ev.bloques.Nodup ∧
      ∀ x, x ∈ ev.bloques ↔
        ∃ r ∈ (apiReserve
            (apiReserve ⟨[], []⟩ [7] ⟨2025, 3, 10⟩ "1st" "Ana" "").1
            [7] ⟨2025, 3, 10⟩ "2nd" "Ana" "").1.reservations,
          r.ipad_id ∈ [(7 : Int)] ∧ r.fecha = ⟨2025, 3, 10⟩ ∧
          r.bloque_horario = x) :=
  ⟨by decide, by decide, by decide,
   return_releases_whole_day _ _ _ _ _ _ _ (by decide) (by decide)
     (by decide)⟩

/-- C4: a Return whose date is strictly earlier than the current calendar
date is a ValidationError and the database is untouched, whatever the
ledger holds. -/
theorem return_past_date_rejected (db : DB) (ids : List Int)
    (f today : Date) (dc cu nv : String) (h : dateLt f today = true) :
    apiReturn db ids f today dc cu nv = (db, ApiResult.validationError) := by
  unfold apiReturn
  by_cases hne : ids = []
  · rw [if_pos hne]
  · rw [if_neg hne, if_pos h]

/-- C4 witness: returning yesterday's reservation of device 7 is rejected
even though the ledger holds an active row for it. -/
theorem return_past_date_rejected_witness :
    dateLt ⟨2025, 3, 9⟩ ⟨2025, 3, 10⟩ = true ∧
    apiReturn (apiReserve ⟨[], []⟩ [7] ⟨2025, 3, 9⟩ "1st" "Ana" "").1
        [7] ⟨2025, 3, 9⟩ ⟨2025, 3, 10⟩ "Ana" "" "" =
      ((apiReserve ⟨[], []⟩ [7] ⟨2025, 3, 9⟩ "1st" "Ana" "").1,
       ApiResult.validationError) :=
  ⟨by decide,
   return_past_date_rejected _ _ _ _ _ _ _ (by decide)⟩

/-- C6: a valid Return batch in which no requested device holds any active
reservation on that date answers NotFound and leaves the whole database —
ledger and history — unchanged. -/
theorem return_noop_notfound (db : DB) (ids : List Int) (f today : Date)
    (dc cu nv : String) (hne : ids ≠ []) (hpast : dateLt f today = false)
    (hnone : ∀ i ∈ ids, blocksFor db.reservations i f = []) :
    apiReturn db ids f today dc cu nv = (db, ApiResult.notFound) := by
  unfold apiReturn
  rw [if_neg hne, if_neg (by simp [hpast]),
    returnLoop_noop _ _ _ _ hnone]
  split
  · rfl
  · rename_i hc
    exact absurd rfl hc

/-- C6 witness: returning device 9, which has no reservation on the date
(only device 7 has one), is NotFound with no state change. -/
theorem return_noop_notfound_witness :
    ([9] ≠ ([] : List Int)) ∧
    dateLt ⟨2025, 3, 10⟩ ⟨2025, 3, 10⟩ = false ∧
    (∀ i ∈ [(9 : Int)],
      blocksFor
        (apiReserve ⟨[], []⟩ [7] ⟨2025, 3, 10⟩ "1st" "Ana" "").1.reservations
        i ⟨2025, 3, 10⟩ = []) ∧
    apiReturn (apiReserve ⟨[], []⟩ [7] ⟨2025, 3, 10⟩ "1st" "Ana" "").1
        [9] ⟨2025, 3, 10⟩ ⟨2025, 3, 10⟩ "Ana" "" "" =
      ((apiReserve ⟨[], []⟩ [7] ⟨2025, 3, 10⟩ "1st" "Ana" "").1,
       ApiResult.notFound) :=
  ⟨by decide, by decide, by decide,
   return_noop_notfound _ _ _ _ _ _ _ (by decide) (by decide) (by decide)⟩

/-- C7: when a Reserve batch succeeds, submitting the identical payload
again answers Conflict and returns exactly the state the first call
produced: the retry has no side effect. -/
theorem reserve_retry_conflict (db : DB) (ids : List Int) (f : Date)
    (b dc cu : String)
    (h : (apiReserve db ids f b dc cu).2 = ApiResult.success) :
    apiReserve (apiReserve db ids f b dc cu).1 ids f b dc cu =
      ((apiReserve db ids f b dc cu).1, ApiResult.conflict) := by
  obtain ⟨hne, hb, hdc, rs', hins, hres⟩ := apiReserve_success_state h
  apply apiReserve_conflict_of_taken hne hb hdc
  obtain ⟨i, hi⟩ := List.exists_mem_of_ne_nil ids hne
  refine ⟨i, hi, ?_⟩
  rw [hres]
  exact insertReservations_taken hins hi

/-- C7 witness: reserving {3, 4} twice: the first call succeeds, the second
is Conflict with the state of the first call alone. -/
theorem reserve_retry_conflict_witness :
    (apiReserve ⟨[], []⟩ [3, 4] ⟨2025, 3, 10⟩ "1st" "Ana" "").2 =
      ApiResult.success ∧
    apiReserve (apiReserve ⟨[], []⟩ [3, 4] ⟨2025, 3, 10⟩ "1st" "Ana" "").1
        [3, 4] ⟨2025, 3, 10⟩ "1st" "Ana" "" =
      ((apiReserve ⟨[], []⟩ [3, 4] ⟨2025, 3, 10⟩ "1st" "Ana" "").1,
       ApiResult.conflict) :=
  ⟨by decide,
   reserve_retry_conflict _ _ _ _ _ _ (by decide)⟩

/-- C5 counterexample: the batch-variant Reserve (`part_000`, one of the
claim's cited sources) has no weekday guard: on Saturday 2025-10-11 it
succeeds and writes both a ledger row and a history event, refuting
"every Reserve request whose date falls on a Saturday or Sunday is
rejected with a ValidationError before any write". -/
theorem reserve_weekend_cex :
    dayOfWeekJS ⟨2025, 10, 11⟩ = 6 ∧
    apiReserve ⟨[], []⟩ [7] ⟨2025, 10, 11⟩ "1st" "Ana" "" =
      (⟨[⟨7, ⟨2025, 10, 11⟩, "1st", "Ana", ""⟩],
        [⟨"Ana", "", [7], ⟨2025, 10, 11⟩, ["1st"], EventType.RESERVA, ""⟩]⟩,
       ApiResult.success) := by decide

/-- C5 (amended): in the single-device variant (`src/server.ts`) a Reserve
whose date falls on Saturday or Sunday is rejected with a ValidationError
before any write; the batch variant (`part_000`) has no weekday check. -/
theorem reserve_weekend_rejected_single (rs : List Reservation) (i : Int)
    (f : Date) (b dc cu : String)
    (h : dayOfWeekJS f = 0 ∨ dayOfWeekJS f = 6) :
    apiReserveSingle rs i f b dc cu = (rs, ApiResult.validationError) := by
  unfold apiReserveSingle
  by_cases hval : i = 0 ∨ b = "" ∨ dc = ""
  · rw [if_pos hval]
  · rw [if_neg hval, if_pos h]

/-- C5 witness: Sunday 2025-10-12 is rejected by the single-device
variant. -/
theorem reserve_weekend_rejected_single_witness :
    (dayOfWeekJS ⟨2025, 10, 12⟩ = 0 ∨ dayOfWeekJS ⟨2025, 10, 12⟩ = 6) ∧
    apiReserveSingle [] 7 ⟨2025, 10, 12⟩ "1st" "Ana" "" =
      ([], ApiResult.validationError) :=
  ⟨Or.inl (by decide),
   reserve_weekend_rejected_single [] 7 ⟨2025, 10, 12⟩ "1st" "Ana" ""
     (Or.inl (by decide))⟩

/-- C8: a month with zero active reservations yields the explicit no-data
answer: total 0 and the sentinel "N/A" for the most-used device, the
highest-demand date and the most-reserved block — a total function, no
crash. -/
theorem stats_no_data_sentinel (db : DB) (m y : Nat)
    (h : db.reservations.filter (inMonth m y) = []) :
    apiStats db m y = ⟨0, "N/A", "N/A", "N/A"⟩ := by
  show statsOf (db.reservations.filter (inMonth m y)) = _
  rw [h]
  rfl

/-- C8 witness: April 2025 has no reservation in a ledger whose only row is
in March 2025, so every stats field is the sentinel. -/
theorem stats_no_data_sentinel_witness :
    (apiReserve ⟨[], []⟩ [7] ⟨2025, 3, 10⟩ "1st" "Ana" ""
      ).1.reservations.filter (inMonth 4 2025) = [] ∧
    apiStats (apiReserve ⟨[], []⟩ [7] ⟨2025, 3, 10⟩ "1st" "Ana" "").1
      4 2025 = ⟨0, "N/A", "N/A", "N/A"⟩ :=
  ⟨by decide,
   stats_no_data_sentinel _ 4 2025 (by decide)⟩

/-- C10 counterexample: the single-device Reserve (`src/server.ts`, one of
the claim's cited sources) rejects the out-of-pool id 0 on a free Monday
slot with a ValidationError — its `!ipad_id` falsiness check fires — so
"for every integer device id outside the fixed pool 1..60 (e.g., 0, 61 or
999), a Reserve request naming that id on a free slot succeeds" is false
at id 0. -/
theorem reserve_no_pool_check_cex :
    slotTaken [] 0 ⟨2025, 10, 13⟩ "1st" = false ∧
    dayOfWeekJS ⟨2025, 10, 13⟩ = 1 ∧
    apiReserveSingle [] 0 ⟨2025, 10, 13⟩ "1st" "Ana" "" =
      ([], ApiResult.validationError) := by decide

/-- C10 (amended): neither variant checks the requested id against the
seeded pool 1..60.  The batch Reserve creates an active reservation for
any integer id — 0, 61 or 999 included — on a free slot; the single-device
Reserve does so for any id other than 0, id 0 being caught by its
required-field falsiness validation, not by a pool lookup. -/
theorem reserve_no_pool_check (db : DB) (rs : List Reservation) (i : Int)
    (f : Date) (b dc cu : String) (hb : b ≠ "") (hdc : dc ≠ "")
    (hfree : slotTaken db.reservations i f b = false)
    (hfree2 : slotTaken rs i f b = false)
    (hwk : ¬(dayOfWeekJS f = 0 ∨ dayOfWeekJS f = 6)) :
    ((apiReserve db [i] f b dc cu).2 = ApiResult.success ∧
      (⟨i, f, b, dc, cu⟩ : Reservation) ∈
        (apiReserve db [i] f b dc cu).1.reservations) ∧
    (i ≠ 0 →
      (apiReserveSingle rs i f b dc cu).2 = ApiResult.success ∧
      (⟨i, f, b, dc, cu⟩ : Reservation) ∈
        (apiReserveSingle rs i f b dc cu).1) := by
  constructor
  · unfold apiReserve
    rw [if_neg (by simp [hb, hdc])]
    simp only [insertReservations]
    rw [if_neg (by simp [hfree])]
    exact ⟨rfl, by simp⟩
  · intro hi
    unfold apiReserveSingle
    rw [if_neg (by simp [hi, hb, hdc]), if_neg hwk,
      if_neg (by simp [hfree2])]
    exact ⟨rfl, by simp⟩

/-- C10 witness: id 61, outside the seeded pool, is reserved by both
variants on a free Monday slot. -/
theorem reserve_no_pool_check_witness :
    ("1st" ≠ "") ∧ ("Ana" ≠ "") ∧
    slotTaken ([] : List Reservation) 61 ⟨2025, 10, 13⟩ "1st" = false ∧
    ¬(dayOfWeekJS ⟨2025, 10, 13⟩ = 0 ∨ dayOfWeekJS ⟨2025, 10, 13⟩ = 6) ∧
    (((apiReserve ⟨[], []⟩ [61] ⟨2025, 10, 13⟩ "1st" "Ana" "").2 =
        ApiResult.success ∧
      (⟨61, ⟨2025, 10, 13⟩, "1st", "Ana", ""⟩ : Reservation) ∈
        (apiReserve ⟨[], []⟩ [61] ⟨2025, 10, 13⟩ "1st" "Ana" ""
          ).1.reservations) ∧
     ((61 : Int) ≠ 0 →
      (apiReserveSingle [] 61 ⟨2025, 10, 13⟩ "1st" "Ana" "").2 =
        ApiResult.success ∧
      (⟨61, ⟨2025, 10, 13⟩, "1st", "Ana", ""⟩ : Reservation) ∈
        (apiReserveSingle [] 61 ⟨2025, 10, 13⟩ "1st" "Ana" "").1)) :=
  ⟨by decide, by decide, by decide, by decide,
   reserve_no_pool_check ⟨[], []⟩ [] 61 ⟨2025, 10, 13⟩ "1st" "Ana" ""
     (by decide) (by decide) (by decide) (by decide) (by decide)⟩
